import Mathlib

/-!
Verification of the reading-position and navigation engine of the `baca`
terminal ebook reader, as implemented in `src/baca/app.py`,
`src/baca/utils/cli.py` and `src/baca/utils/keys_parser.py`.

Scroll coordinates and progress fractions are embedded as rationals (ℚ);
stateful handlers are embedded as explicit state-passing functions, and the
side effects they issue (scroll commands, alerts, widget removal, callback
invocation) as explicit effect lists.
-/

namespace Baca

/-! ### Reading Position Tracker (`src/baca/app.py`) -/

/-- A scroll command issued to the screen: `scroll_to(x, y, speed=…, animate=…)`. -/
structure ScrollCmd where
  x : Option ℚ
  y : ℚ
  speed : ℚ
  animate : Bool
deriving DecidableEq

/-- An effect performed by the `init_render` callback in `Baca.on_done_loading`. -/
inductive RenderEffect
  | scrollTo (cmd : ScrollCmd)
  | removeLoader
deriving DecidableEq

def RenderEffect.isScrollTo : RenderEffect → Bool
  | .scrollTo _ => true
  | .removeLoader => false

/-- Embedding of the `init_render` closure in `Baca.on_done_loading`
(`src/baca/app.py` lines 59-64): it computes
`historic_y = self.ebook_state.reading_progress * self.screen.max_scroll_y`,
issues `self.screen.scroll_to(None, historic_y, speed=0, animate=False)`, then
removes the startup loading indicator.  `call_after_refresh` schedules this
callback exactly once, after the first successful layout. -/
def init_render (reading_progress max_scroll_y : ℚ) : List RenderEffect :=
  let historic_y := reading_progress * max_scroll_y
  [RenderEffect.scrollTo ⟨none, historic_y, 0, false⟩, RenderEffect.removeLoader]

/-- Embedding of the `new_watcher` closure installed by `Baca.on_mount`
(`src/baca/app.py` lines 69-76) over the scroll-position state it mutates: after
delegating to the original watcher it sets
`self.reading_progress = new / screen.max_scroll_y` when `screen.max_scroll_y != 0`,
and leaves `self.reading_progress` unchanged otherwise.  The returned value is
the new `reading_progress`. -/
def watch_scroll_y (max_scroll_y reading_progress new : ℚ) : ℚ :=
  if max_scroll_y ≠ 0 then new / max_scroll_y else reading_progress

/-- The `reading_progress` stored after a whole sequence of scroll-position
values has been delivered to the wrapped watcher, starting from `p`. -/
def apply_scroll_events (max_scroll_y p : ℚ) (events : List ℚ) : ℚ :=
  events.foldl (watch_scroll_y max_scroll_y) p

/-- C1: on entry to `Active` (the `init_render` callback scheduled once after
the first successful layout), exactly one scroll command is issued; it is
non-animated, has speed 0, and its coordinate is the persisted
`reading_progress` fraction times the current `max_scroll_y`; in particular for
`max_scroll_y = 200` and `reading_progress = 0.25` the coordinate is `50`. -/
theorem init_render_restores_once (p m : ℚ) :
    (init_render p m).filter RenderEffect.isScrollTo
      = [RenderEffect.scrollTo ⟨none, p * m, 0, false⟩]
    ∧ (init_render (1/4) 200).filter RenderEffect.isScrollTo
      = [RenderEffect.scrollTo ⟨none, 50, 0, false⟩] := by
  constructor
  · simp [init_render, RenderEffect.isScrollTo]
  · norm_num [init_render, RenderEffect.isScrollTo]

/-- C2: a scroll-position change event updates `reading_progress` to
`new / max_scroll_y` when `max_scroll_y ≠ 0`, and skips the update (keeping the
previous value, with no division performed) when `max_scroll_y = 0`. -/
theorem watch_scroll_y_guard (m p y : ℚ) :
    (m ≠ 0 → watch_scroll_y m p y = y / m) ∧ (m = 0 → watch_scroll_y m p y = p) := by
  unfold watch_scroll_y
  constructor
  · intro h; simp [h]
  · intro h; simp [h]

theorem watch_scroll_y_guard_witness :
    watch_scroll_y 200 (1/4) 100 = 100 / 200 ∧ watch_scroll_y 0 (1/4) 100 = 1/4 :=
  ⟨(watch_scroll_y_guard 200 (1/4) 100).1 (by norm_num),
   (watch_scroll_y_guard 0 (1/4) 100).2 rfl⟩

/-- C8 counterexample: the watcher performs no clamping, so a delivered
scroll-position value larger than `max_scroll_y` (here `new = 300` with
`max_scroll_y = 200`, starting from the initial `reading_progress = 0`) leaves a
stored value strictly greater than `1`, outside `[0, 1]`. -/
theorem reading_progress_escapes_unit_interval :
    1 < apply_scroll_events 200 0 [300] := by
  norm_num [apply_scroll_events, watch_scroll_y]

/-- C8 (amended): provided every delivered scroll-position value lies in
`[0, max_scroll_y]` (the clamping the scroll engine guarantees), a
`reading_progress` starting in `[0, 1]` — it starts at `0.0` in
`Baca.__init__` — remains in `[0, 1]` after every sequence of scroll events. -/
theorem reading_progress_in_unit_interval (m p : ℚ) (events : List ℚ)
    (hp : 0 ≤ p ∧ p ≤ 1) (he : ∀ y ∈ events, 0 ≤ y ∧ y ≤ m) :
    0 ≤ apply_scroll_events m p events ∧ apply_scroll_events m p events ≤ 1 := by
  induction events generalizing p with
  | nil => exact hp
  | cons y rest ih =>
    have hy := he y (List.mem_cons_self y rest)
    have hrest : ∀ z ∈ rest, 0 ≤ z ∧ z ≤ m := fun z hz => he z (List.mem_cons_of_mem y hz)
    have hstep : 0 ≤ watch_scroll_y m p y ∧ watch_scroll_y m p y ≤ 1 := by
      unfold watch_scroll_y
      by_cases hm : m = 0
      · simp [hm, hp.1, hp.2]
      · have hmpos : 0 < m := lt_of_le_of_ne (le_trans hy.1 hy.2) (Ne.symm hm)
        constructor
        · simpa [hm] using div_nonneg hy.1 (le_of_lt hmpos)
        · simpa [hm] using (div_le_one hmpos).mpr hy.2
    exact ih (watch_scroll_y m p y) hstep hrest

theorem reading_progress_in_unit_interval_witness :
    0 ≤ apply_scroll_events 200 0 [100, 50] ∧ apply_scroll_events 200 0 [100, 50] ≤ 1 :=
  reading_progress_in_unit_interval 200 0 [100, 50] (by norm_num)
    (by intro y hy; fin_cases hy <;> norm_num)

/-! ### History Store and session teardown (`src/baca/app.py`) -/

/-- Metadata returned by `self.ebook.get_meta()`. -/
structure EbookMeta where
  title : String
  creator : String
deriving DecidableEq

/-- A row of the persisted reading history:
`{filepath (unique key), last_read, title, author, reading_progress}`. -/
structure ReadingHistoryRecord where
  filepath : String
  last_read : Nat
  title : String
  author : String
  reading_progress : ℚ
deriving DecidableEq

/-- Errors that can surface around the History Store. -/
inductive BacaError
  | persistence (msg : String)
  | other (msg : String)
deriving DecidableEq

/-- Modelled from the spec: `ReadingHistory.get_or_create(filepath=…, defaults=…)`
(the `ReadingHistory` peewee model lives in `src/baca/models.py`, which is not
under `src/`; only its caller `Baca.load_everything` is).  Per the spec: keyed
lookup on `filepath`; on miss, creates a new record with the default
`reading_progress` and persists it immediately.  Returns the record, the
`created` flag, and the store after the call. -/
def get_or_create (store : List ReadingHistoryRecord) (filepath : String)
    (default_progress : ℚ) : ReadingHistoryRecord × Bool × List ReadingHistoryRecord :=
  match store.find? (fun r => r.filepath = filepath) with
  | some r => (r, false, store)
  | none =>
      let r : ReadingHistoryRecord := ⟨filepath, 0, "", "", default_progress⟩
      (r, true, store ++ [r])

/-- Modelled from the spec: `record.save()` of the History Store (peewee model
in `src/baca/models.py`, not under `src/`): upsert on `filepath`, overwriting
`last_read`, `title`, `author` and `reading_progress`. -/
def save_record (store : List ReadingHistoryRecord) (r : ReadingHistoryRecord) :
    List ReadingHistoryRecord :=
  if store.any (fun q => q.filepath = r.filepath) then
    store.map (fun q => if q.filepath = r.filepath then r else q)
  else store ++ [r]

/-- Embedding of `Baca.run` (`src/baca/app.py` lines 175-185).  `inner` is the
outcome of `super().run(*args, **kwargs)`; the `finally` block then runs
unconditionally: it calls `self.ebook.cleanup()`, reads the metadata, writes
`last_read`, `title`, `author` and `reading_progress` into `self.ebook_state`,
and calls `self.ebook_state.save()` synchronously.  `saveImpl` is the save
operation on the persisted store; per Python `try`/`finally` semantics an
exception raised by the `finally` block propagates (there is no handler around
the save), while if the `finally` block completes the original `inner` outcome
(value or re-raised exception) is returned.  The result pairs the outcome of
`run` with the store after teardown. -/
def run_teardown (A : Type) (inner : Except BacaError A) (now : Nat)
    (meta : EbookMeta) (reading_progress : ℚ) (ebook_state : ReadingHistoryRecord)
    (store : List ReadingHistoryRecord)
    (saveImpl : List ReadingHistoryRecord → ReadingHistoryRecord →
      Except BacaError (List ReadingHistoryRecord)) :
    Except BacaError A × List ReadingHistoryRecord :=
  match saveImpl store
      { ebook_state with last_read := now, title := meta.title,
                         author := meta.creator, reading_progress := reading_progress } with
  | Except.error e => (Except.error e, store)
  | Except.ok store2 => (inner, store2)

/-- A save implementation that always fails with a `PersistenceError`. -/
def failing_save : List ReadingHistoryRecord → ReadingHistoryRecord →
    Except BacaError (List ReadingHistoryRecord) :=
  fun _ _ => Except.error (BacaError.persistence "disk full")

/-- The record written by a successful upsert is in the resulting store. -/
theorem self_mem_save_record (s : List ReadingHistoryRecord) (r : ReadingHistoryRecord) :
    r ∈ save_record s r := by
  unfold save_record
  by_cases h : s.any (fun q => q.filepath = r.filepath) = true
  · obtain ⟨q, hq, hfp⟩ := List.any_eq_true.mp h
    simp only [h, if_true]
    refine List.mem_map.mpr ⟨q, hq, ?_⟩
    simp [of_decide_eq_true hfp]
  · simp [h]

/-- C4: on first open (no row for the path yet), `get_or_create` creates the
record keyed by the path with default `reading_progress = 0.0` and persists it
immediately (the returned store already holds the row); a subsequent call with
the same path fetches that very record, reports `created = false`, and leaves
the store unchanged — no duplicate row. -/
theorem get_or_create_first_open_then_fetch (store : List ReadingHistoryRecord)
    (fp : String) (hmiss : store.find? (fun r => r.filepath = fp) = none) :
    get_or_create store fp 0
      = (⟨fp, 0, "", "", 0⟩, true, store ++ [⟨fp, 0, "", "", 0⟩])
    ∧ (⟨fp, 0, "", "", 0⟩ : ReadingHistoryRecord) ∈ store ++ [⟨fp, 0, "", "", 0⟩]
    ∧ get_or_create (store ++ [⟨fp, 0, "", "", 0⟩]) fp 0
      = (⟨fp, 0, "", "", 0⟩, false, store ++ [⟨fp, 0, "", "", 0⟩]) := by
  refine ⟨?_, by simp, ?_⟩
  · unfold get_or_create
    rw [hmiss]
  · unfold get_or_create
    rw [List.find?_append, hmiss]
    simp

theorem get_or_create_first_open_then_fetch_witness :
    get_or_create [] "book.epub" 0
      = (⟨"book.epub", 0, "", "", 0⟩, true, [⟨"book.epub", 0, "", "", 0⟩])
    ∧ (⟨"book.epub", 0, "", "", 0⟩ : ReadingHistoryRecord) ∈
        ([] : List ReadingHistoryRecord) ++ [⟨"book.epub", 0, "", "", 0⟩]
    ∧ get_or_create (([] : List ReadingHistoryRecord) ++ [⟨"book.epub", 0, "", "", 0⟩])
        "book.epub" 0
      = (⟨"book.epub", 0, "", "", 0⟩, false,
         ([] : List ReadingHistoryRecord) ++ [⟨"book.epub", 0, "", "", 0⟩]) :=
  get_or_create_first_open_then_fetch [] "book.epub" rfl

/-- C5: on session end the teardown path of `Baca.run` updates the record with
the session's `last_read`, `title`, `author` and `reading_progress` and saves
it synchronously before `run` returns: the returned store is the upserted one
and contains the fully updated record, and the original session outcome (value
or exception) is only delivered after the save — for every `inner`, including
`Except.error`, i.e. a session terminated by an exception. -/
theorem run_saves_on_exit (A : Type) (inner : Except BacaError A) (now : Nat)
    (meta : EbookMeta) (p : ℚ) (st : ReadingHistoryRecord)
    (store : List ReadingHistoryRecord) :
    run_teardown A inner now meta p st store (fun s r => Except.ok (save_record s r))
      = (inner,
         save_record store
           { st with last_read := now, title := meta.title,
                     author := meta.creator, reading_progress := p })
    ∧ { st with last_read := now, title := meta.title,
                author := meta.creator, reading_progress := p }
        ∈ (run_teardown A inner now meta p st store
            (fun s r => Except.ok (save_record s r))).2 := by
  exact ⟨rfl, self_mem_save_record store _⟩

/-- C3 counterexample: with a save that raises a `PersistenceError`, the
embedded `Baca.run` returns that error — the exception is not caught anywhere
in `Baca.run` (there is no handler and no logging around
`self.ebook_state.save()`), contradicting the claim that it is caught and the
session continues. -/
theorem persistence_error_not_caught :
    (run_teardown Unit (Except.ok ()) 0 ⟨"T", "A"⟩ (1/2) ⟨"b.epub", 0, "", "", 0⟩ []
        failing_save).1
      = Except.error (BacaError.persistence "disk full")
    ∧ (run_teardown Unit (Except.ok ()) 0 ⟨"T", "A"⟩ (1/2) ⟨"b.epub", 0, "", "", 0⟩ []
        failing_save).1
      ≠ Except.ok () := by
  refine ⟨rfl, ?_⟩
  simp [run_teardown, failing_save]

/-- C3 (amended): a `PersistenceError` raised while writing the
reading-history record during the final save is not caught: it propagates out
of `Baca.run`.  Since the only save sits in the `finally` teardown path, after
`super().run()` has already finished, it cannot interrupt the in-progress
reading session, but nothing catches or logs it and `run` itself fails. -/
theorem save_error_propagates (A : Type) (inner : Except BacaError A) (now : Nat)
    (meta : EbookMeta) (p : ℚ) (st : ReadingHistoryRecord)
    (store : List ReadingHistoryRecord)
    (saveImpl : List ReadingHistoryRecord → ReadingHistoryRecord →
      Except BacaError (List ReadingHistoryRecord)) (e : BacaError)
    (hsave : saveImpl store
        { st with last_read := now, title := meta.title,
                  author := meta.creator, reading_progress := p }
      = Except.error e) :
    (run_teardown A inner now meta p st store saveImpl).1 = Except.error e := by
  unfold run_teardown
  rw [hsave]

theorem save_error_propagates_witness :
    (run_teardown Unit (Except.error (BacaError.other "boom")) 7 ⟨"T", "A"⟩ 1
        ⟨"c.epub", 0, "", "", 0⟩ [] failing_save).1
      = Except.error (BacaError.persistence "disk full") :=
  save_error_propagates Unit (Except.error (BacaError.other "boom")) 7 ⟨"T", "A"⟩ 1
    ⟨"c.epub", 0, "", "", 0⟩ [] failing_save (BacaError.persistence "disk full") rfl

/-! ### Navigation: TOC pre-highlight (`Baca.action_open_toc`) -/

/-- A rendered section widget of `self.content.sections`: its id and the start
(`virtual_region.y`) of the virtual region it occupies. -/
structure SectionWidget where
  id : String
  region_y : ℚ
deriving DecidableEq

/-- Embedding of the scan loop in `Baca.action_open_toc`
(`src/baca/app.py` lines 144-149): iterate the sections in document order; when
`scroll_y >= s.virtual_region.y` record `s.id` and continue, otherwise break,
returning the last id recorded (starting from `acc`). -/
def initial_focused_loop (scroll_y : ℚ) (acc : Option String) :
    List SectionWidget → Option String
  | [] => acc
  | s :: rest =>
      if scroll_y ≥ s.region_y then initial_focused_loop scroll_y (some s.id) rest
      else acc

/-- The `initial_focused_id` computed by `Baca.action_open_toc`: the loop above
started from `None`. -/
def initial_focused_id (scroll_y : ℚ) (sections : List SectionWidget) : Option String :=
  initial_focused_loop scroll_y none sections

/-- Spec-side definition, following the spec's words for
`current_toc_context(scroll_y)`: the id of the last entry in document order
whose target region start is `<= scroll_y`, and `null` if there is none. -/
def current_toc_context (scroll_y : ℚ) (sections : List SectionWidget) : Option String :=
  ((sections.filter (fun s => s.region_y ≤ scroll_y)).getLast?).map SectionWidget.id

theorem map_some_getD_none {α β : Type} (o : Option α) (f : α → β) :
    (o.map (fun a => some (f a))).getD none = o.map f := by
  cases o <;> rfl

theorem getLast?_map_getD_cons {α β : Type} (a : α) (l : List α) (f : α → β) (dflt : β) :
    (((a :: l).getLast?).map f).getD dflt = ((l.getLast?).map f).getD (f a) := by
  cases l with
  | nil => rfl
  | cons b bs =>
      rw [List.getLast?_cons_cons]
      cases h : (b :: bs).getLast? with
      | none => exact absurd (List.getLast?_eq_none_iff.mp h) (by simp)
      | some x => rfl

/-- On a section list whose region starts are sorted (the layout invariant:
regions are contiguous and ordered by ordinal), the break-early loop computes
the last entry with region start `≤ scroll_y`, falling back to `acc`. -/
theorem initial_focused_loop_eq (scroll_y : ℚ) (l : List SectionWidget)
    (hs : l.Pairwise (fun a b => a.region_y ≤ b.region_y)) (acc : Option String) :
    initial_focused_loop scroll_y acc l
      = (((l.filter (fun s => s.region_y ≤ scroll_y)).getLast?).map
          (fun s => (some s.id : Option String))).getD acc := by
  induction l generalizing acc with
  | nil => rfl
  | cons s rest ih =>
      rcases List.pairwise_cons.mp hs with ⟨hhead, htail⟩
      by_cases h : s.region_y ≤ scroll_y
      · have hcond : scroll_y ≥ s.region_y := h
        have hfilter : (s :: rest).filter (fun t => t.region_y ≤ scroll_y)
            = s :: rest.filter (fun t => t.region_y ≤ scroll_y) := by
          simp [List.filter_cons, h]
        rw [hfilter, getLast?_map_getD_cons]
        simp only [initial_focused_loop, if_pos hcond]
        exact ih htail (some s.id)
      · have hcond : ¬ scroll_y ≥ s.region_y := h
        have hfilter : (s :: rest).filter (fun t => t.region_y ≤ scroll_y) = [] := by
          rw [List.filter_eq_nil_iff]
          intro t ht
          rcases List.mem_cons.mp ht with rfl | ht'
          · simpa using h
          · have hle := hhead t ht'
            simp only [decide_eq_true_eq]
            intro hc
            exact h (le_trans hle hc)
        rw [hfilter]
        simp only [initial_focused_loop, if_neg hcond]
        rfl

/-- C6: with the sections sorted by region start (the layout invariant), the
scan in `Baca.action_open_toc` returns exactly the spec's
`current_toc_context(scroll_y)` — the id of the last entry in document order
whose region start is `≤ scroll_y` — and returns `None` when there are no
sections or when `scroll_y` precedes every region start. -/
theorem action_open_toc_context (scroll_y : ℚ) (sections : List SectionWidget)
    (hs : sections.Pairwise (fun a b => a.region_y ≤ b.region_y)) :
    initial_focused_id scroll_y sections = current_toc_context scroll_y sections
    ∧ (sections = [] → initial_focused_id scroll_y sections = none)
    ∧ ((∀ s ∈ sections, scroll_y < s.region_y) →
        initial_focused_id scroll_y sections = none) := by
  have hmain : initial_focused_id scroll_y sections
      = current_toc_context scroll_y sections := by
    unfold initial_focused_id current_toc_context
    rw [initial_focused_loop_eq scroll_y sections hs none, map_some_getD_none]
  refine ⟨hmain, ?_, ?_⟩
  · rintro rfl; rfl
  · intro hall
    rw [hmain]
    unfold current_toc_context
    have hnil : sections.filter (fun s => s.region_y ≤ scroll_y) = [] := by
      rw [List.filter_eq_nil_iff]
      intro s hsmem
      simpa using not_le.mpr (hall s hsmem)
    rw [hnil]
    rfl

theorem action_open_toc_context_witness :
    initial_focused_id 120 [⟨"s0", 0⟩, ⟨"s1", 100⟩, ⟨"s2", 150⟩]
      = current_toc_context 120 [⟨"s0", 0⟩, ⟨"s1", 100⟩, ⟨"s2", 150⟩]
    ∧ (([⟨"s0", 0⟩, ⟨"s1", 100⟩, ⟨"s2", 150⟩] : List SectionWidget) = [] →
        initial_focused_id 120 [⟨"s0", 0⟩, ⟨"s1", 100⟩, ⟨"s2", 150⟩] = none)
    ∧ ((∀ s ∈ ([⟨"s0", 0⟩, ⟨"s1", 100⟩, ⟨"s2", 150⟩] : List SectionWidget),
          (120 : ℚ) < s.region_y) →
        initial_focused_id 120 [⟨"s0", 0⟩, ⟨"s1", 100⟩, ⟨"s2", 150⟩] = none) :=
  action_open_toc_context 120 [⟨"s0", 0⟩, ⟨"s1", 100⟩, ⟨"s2", 150⟩]
    (by norm_num [List.pairwise_cons])

/-! ### Opening images externally (`Baca.on_open_this_image`) -/

/-- Outcome of `subprocess.check_output(["xdg-open", tmpfilepath], …)`: success,
a `CalledProcessError` carrying decoded stderr, or a `FileNotFoundError`. -/
inductive OpenExternalResult
  | ok
  | calledProcessError (stderr : String)
  | fileNotFoundError (msg : String)
deriving DecidableEq

/-- Observable outcome of the `on_open_this_image` handler: the temp file
written (name and bytes), the alert mounted if any, the scroll commands issued,
and whether the handler re-raised. -/
structure ImageOutcome where
  written_filename : String
  written_bytes : List Nat
  alert : Option String
  scroll_cmds : List ScrollCmd
  crashed : Bool
deriving DecidableEq

/-- Embedding of `Baca.on_open_this_image` (`src/baca/app.py` lines 160-170):
obtains `(filename, bytestr)` from `self.ebook.get_img_bytestr(message.value)`
— pure delegation to the Ebook backend — writes the bytes to a temp file and
invokes `xdg-open` on it; `CalledProcessError` and `FileNotFoundError` are
caught and turned into a mounted `Alert` whose message is
`"Error opening an image: "` followed by the decoded stderr (for
`CalledProcessError`) or `str(e)`; the handler never issues a scroll command
and never re-raises. -/
def on_open_this_image (get_img_bytestr : String → String × List Nat) (value : String)
    (open_result : OpenExternalResult) : ImageOutcome :=
  let fb := get_img_bytestr value
  match open_result with
  | OpenExternalResult.ok => ⟨fb.1, fb.2, none, [], false⟩
  | OpenExternalResult.calledProcessError stderr =>
      ⟨fb.1, fb.2, some ("Error opening an image: " ++ stderr), [], false⟩
  | OpenExternalResult.fileNotFoundError msg =>
      ⟨fb.1, fb.2, some ("Error opening an image: " ++ msg), [], false⟩

/-- C7: resolving an `ImageResource` delegates to the Ebook backend for the
filename and raw bytes, performs no resolution into scroll space (no scroll
command), and any failure of the external open is recoverable: it becomes a
dismissible alert and the handler never crashes the session. -/
theorem on_open_this_image_recovers (get_img_bytestr : String → String × List Nat)
    (value : String) (res : OpenExternalResult) :
    (on_open_this_image get_img_bytestr value res).written_filename
      = (get_img_bytestr value).1
    ∧ (on_open_this_image get_img_bytestr value res).written_bytes
      = (get_img_bytestr value).2
    ∧ (on_open_this_image get_img_bytestr value res).scroll_cmds = []
    ∧ (on_open_this_image get_img_bytestr value res).crashed = false
    ∧ (∀ s, res = OpenExternalResult.calledProcessError s →
        (on_open_this_image get_img_bytestr value res).alert
          = some ("Error opening an image: " ++ s))
    ∧ (∀ s, res = OpenExternalResult.fileNotFoundError s →
        (on_open_this_image get_img_bytestr value res).alert
          = some ("Error opening an image: " ++ s)) := by
  cases res <;> simp [on_open_this_image]

theorem on_open_this_image_recovers_witness :
    (on_open_this_image (fun _ => ("img.png", [7, 8])) "res1"
        (OpenExternalResult.calledProcessError "no handler")).written_filename
      = ((fun (_ : String) => ("img.png", [7, 8])) "res1").1
    ∧ (on_open_this_image (fun _ => ("img.png", [7, 8])) "res1"
        (OpenExternalResult.calledProcessError "no handler")).written_bytes
      = ((fun (_ : String) => ("img.png", [7, 8])) "res1").2
    ∧ (on_open_this_image (fun _ => ("img.png", [7, 8])) "res1"
        (OpenExternalResult.calledProcessError "no handler")).scroll_cmds = []
    ∧ (on_open_this_image (fun _ => ("img.png", [7, 8])) "res1"
        (OpenExternalResult.calledProcessError "no handler")).crashed = false
    ∧ (∀ s, OpenExternalResult.calledProcessError "no handler"
          = OpenExternalResult.calledProcessError s →
        (on_open_this_image (fun _ => ("img.png", [7, 8])) "res1"
            (OpenExternalResult.calledProcessError "no handler")).alert
          = some ("Error opening an image: " ++ s))
    ∧ (∀ s, OpenExternalResult.calledProcessError "no handler"
          = OpenExternalResult.fileNotFoundError s →
        (on_open_this_image (fun _ => ("img.png", [7, 8])) "res1"
            (OpenExternalResult.calledProcessError "no handler")).alert
          = some ("Error opening an image: " ++ s)) :=
  on_open_this_image_recovers (fun _ => ("img.png", [7, 8])) "res1"
    (OpenExternalResult.calledProcessError "no handler")

/-! ### CLI file resolution (`src/baca/utils/cli.py`) -/

/-- Result of `find_file`: a resolved path, the history listing printed by the
`--history` flag (exit 0), or a `print_danger` exit (exit -1), recording
whether the reading history was printed before the error message. -/
inductive FindFileResult
  | found (path : String)
  | historyListed
  | danger (printed_history : Bool) (msg : String)
deriving DecidableEq

/-- Value of a nonempty run of decimal digits, `none` on any non-digit. -/
def py_nat_digits : Nat → List Char → Option Nat
  | acc, [] => some acc
  | acc, c :: cs =>
      if c.isDigit then py_nat_digits (acc * 10 + (c.toNat - 48)) cs else none

/-- Python `int(arg)` on a list of characters: an optional sign followed by a
nonempty run of decimal digits. -/
def py_int_of_chars : List Char → Option Int
  | [] => none
  | '-' :: cs =>
      if cs = [] then none else (py_nat_digits 0 cs).map (fun n => -(n : Int))
  | '+' :: cs =>
      if cs = [] then none else (py_nat_digits 0 cs).map (fun n => (n : Int))
  | cs => (py_nat_digits 0 cs).map (fun n => (n : Int))

/-- Models Python `int(arg)` on a CLI argument: `some n` when the string is a
signed decimal integer literal, `none` when `int` raises `ValueError`. -/
def py_int_of_string (s : String) : Option Int := py_int_of_chars s.toList

/-- The shared fall-through tail of `find_file` (`cli.py` lines 114-119):
`pattern = " ".join(args.ebook)`, then `get_best_match_from_history(pattern)`,
returning the match or exiting with "found no matching ebook!". -/
def find_file_pattern (get_best_match_from_history : String → Option String)
    (ebook_args : List String) : FindFileResult :=
  match get_best_match_from_history (" ".intercalate ebook_args) with
  | none => FindFileResult.danger false "found no matching ebook!"
  | some p => FindFileResult.found p

/-- Embedding of `find_file` (`src/baca/utils/cli.py` lines 86-119).  The
external collaborators (history queries, `Path(arg).is_file()`) are passed as
functions.  With a single positional argument the code first tries
`int(arg)`; on success it resolves via `get_nth_file_from_history`, printing
the history and exiting with an error when the index is absent; only when
`int(arg)` raises `ValueError` does it test `Path(arg).is_file()`, falling
through to the pattern branch otherwise. -/
def find_file (get_nth_file_from_history : Int → Option String)
    (get_last_read_ebook : Option String) (is_file : String → Bool)
    (get_best_match_from_history : String → Option String)
    (history_flag : Bool) (ebook_args : List String) : FindFileResult :=
  if history_flag then FindFileResult.historyListed
  else
    match ebook_args with
    | [] =>
        match get_last_read_ebook with
        | some p => FindFileResult.found p
        | none => FindFileResult.danger false "found no last read ebook file!"
    | [arg] =>
        match py_int_of_string arg with
        | some nth =>
            match get_nth_file_from_history nth with
            | none =>
                FindFileResult.danger true
                  ("#" ++ toString nth ++ " file not found from history!")
            | some p => FindFileResult.found p
        | none =>
            if is_file arg then FindFileResult.found arg
            else find_file_pattern get_best_match_from_history [arg]
    | _ => find_file_pattern get_best_match_from_history ebook_args

/-- C9: a single positional argument that parses as an integer is resolved as a
history index instead of a file path: the result is entirely determined by the
history lookup (it does not depend on the `is_file` test or the pattern
matcher at all), and on lookup failure the program exits with an error — so
a file whose name is a bare integer cannot be opened by that name. -/
theorem find_file_int_arg_ignores_path (hist : Int → Option String)
    (last : Option String) (is_file is_file2 : String → Bool)
    (best best2 : String → Option String) (arg : String) (n : Int)
    (hn : py_int_of_string arg = some n) :
    find_file hist last is_file best false [arg]
      = (match hist n with
         | none => FindFileResult.danger true
             ("#" ++ toString n ++ " file not found from history!")
         | some p => FindFileResult.found p)
    ∧ find_file hist last is_file best false [arg]
      = find_file hist last is_file2 best2 false [arg]
    ∧ (hist n = none →
        find_file hist last is_file best false [arg]
          = FindFileResult.danger true
              ("#" ++ toString n ++ " file not found from history!")) := by
  refine ⟨?_, ?_, ?_⟩
  · cases h : hist n <;> simp [find_file, hn, h]
  · cases h : hist n <;> simp [find_file, hn, h]
  · intro h; simp [find_file, hn, h]

theorem find_file_int_arg_ignores_path_witness :
    find_file (fun _ => none) none (fun _ => true) (fun _ => none) false ["3"]
      = FindFileResult.danger true
          ("#" ++ toString (3 : Int) ++ " file not found from history!")
    ∧ find_file (fun _ => none) none (fun _ => true) (fun _ => none) false ["3"]
      = find_file (fun _ => none) none (fun _ => false) (fun _ => some "x") false ["3"]
    ∧ ((fun (_ : Int) => (none : Option String)) (3 : Int) = none →
        find_file (fun _ => none) none (fun _ => true) (fun _ => none) false ["3"]
          = FindFileResult.danger true
              ("#" ++ toString (3 : Int) ++ " file not found from history!")) :=
  find_file_int_arg_ignores_path (fun _ => none) none (fun _ => true) (fun _ => false)
    (fun _ => none) (fun _ => some "x") "3" 3 (by decide)

/-! ### Key dispatch (`src/baca/utils/keys_parser.py`) -/

/-- A key map (`baca.models.KeyMap`): the key strings it binds and the action
callback. -/
structure KeyMap (α : Type) where
  keys : List String
  action : α

/-- How a callback finishes: it returns normally (possibly after being
awaited), or it raises `SkipAction`. -/
inductive CbOutcome
  | normal
  | skipAction
deriving DecidableEq

/-- An observable step of `dispatch_key`: invoking the matched callback (with
its outcome), calling `event.prevent_default()`, or calling `event.stop()`. -/
inductive DispatchEffect (α : Type)
  | invoke (action : α) (outcome : CbOutcome)
  | preventDefault
  | stop

def DispatchEffect.isPreventDefault {α : Type} : DispatchEffect α → Bool
  | .preventDefault => true
  | _ => false

def DispatchEffect.isStop {α : Type} : DispatchEffect α → Bool
  | .stop => true
  | _ => false

/-- The dict comprehension `{k: m.action for m in maps for k in m.keys}` as a
lookup function: entries are inserted map by map, key by key, a later
insertion for the same key overwriting the earlier one. -/
def key_dict {α : Type} (maps : List (KeyMap α)) : String → Option α :=
  maps.foldl
    (fun d m => m.keys.foldl (fun d k => fun q => if q = k then some m.action else d q) d)
    (fun _ => none)

/-- Embedding of `dispatch_key` (`src/baca/utils/keys_parser.py` lines 9-23):
look `event.key` up in the comprehension dict; when a callback is found, call
it (awaiting the result when awaitable) inside `try … except SkipAction: pass`,
so a raised `SkipAction` is swallowed and execution falls through; then call
`event.prevent_default()` and `event.stop()` unconditionally.  `run` gives each
callback's outcome; the returned list is the sequence of observable effects. -/
def dispatch_key {α : Type} (run : α → CbOutcome) (maps : List (KeyMap α))
    (key : String) : List (DispatchEffect α) :=
  (match key_dict maps key with
   | none => []
   | some a => [DispatchEffect.invoke a (run a)])
  ++ [DispatchEffect.preventDefault, DispatchEffect.stop]

theorem keys_foldl_update {α : Type} (a : α) (ks : List String)
    (d : String → Option α) (q : String) :
    ks.foldl (fun d k => fun q => if q = k then some a else d q) d q
      = if q ∈ ks then some a else d q := by
  induction ks generalizing d with
  | nil => simp
  | cons k ks ih =>
      rw [List.foldl_cons, ih]
      by_cases hq : q ∈ ks
      · simp [hq, List.mem_cons]
      · by_cases hk : q = k
        · simp [hq, hk]
        · simp [hq, hk]

theorem key_dict_foldl_eq {α : Type} (maps : List (KeyMap α)) (d : String → Option α)
    (q : String) :
    maps.foldl
        (fun d m => m.keys.foldl (fun d k => fun q => if q = k then some m.action else d q) d)
        d q
      = (((maps.filter (fun m => q ∈ m.keys)).getLast?).map
          (fun m => (some m.action : Option α))).getD (d q) := by
  induction maps generalizing d with
  | nil => rfl
  | cons m rest ih =>
      simp only [List.foldl_cons]
      rw [ih]
      simp only [keys_foldl_update]
      by_cases hm : q ∈ m.keys
      · have hfilter : (m :: rest).filter (fun t => q ∈ t.keys)
            = m :: rest.filter (fun t => q ∈ t.keys) := by
          simp [List.filter_cons, hm]
        rw [hfilter, getLast?_map_getD_cons, if_pos hm]
      · have hfilter : (m :: rest).filter (fun t => q ∈ t.keys)
            = rest.filter (fun t => q ∈ t.keys) := by
          simp [List.filter_cons, hm]
        rw [hfilter, if_neg hm]

/-- The comprehension dict maps a key to the action of the last map in the
list that binds it. -/
theorem key_dict_eq {α : Type} (maps : List (KeyMap α)) (q : String) :
    key_dict maps q
      = ((maps.filter (fun m => q ∈ m.keys)).getLast?).map KeyMap.action := by
  unfold key_dict
  rw [key_dict_foldl_eq]
  exact map_some_getD_none _ _

/-- C10: for every key event and key-map list, `dispatch_key` performs exactly
one `prevent_default` and one `stop` call — whether or not a binding matched,
and also when the matched callback raises `SkipAction`, which is swallowed —
and the invoked callback, if any, is the action of the last map in the list
binding the key. -/
theorem dispatch_key_effects {α : Type} (run : α → CbOutcome)
    (maps : List (KeyMap α)) (key : String) :
    dispatch_key run maps key
      = (((maps.filter (fun m => key ∈ m.keys)).getLast?).map
          (fun m => [DispatchEffect.invoke m.action (run m.action)])).getD []
        ++ [DispatchEffect.preventDefault, DispatchEffect.stop]
    ∧ (dispatch_key run maps key).countP DispatchEffect.isPreventDefault = 1
    ∧ (dispatch_key run maps key).countP DispatchEffect.isStop = 1 := by
  have hshape : dispatch_key run maps key
      = (((maps.filter (fun m => key ∈ m.keys)).getLast?).map
          (fun m => [DispatchEffect.invoke m.action (run m.action)])).getD []
        ++ [DispatchEffect.preventDefault, DispatchEffect.stop] := by
    unfold dispatch_key
    rw [key_dict_eq]
    cases h : (maps.filter (fun m => key ∈ m.keys)).getLast? <;> simp [h]
  refine ⟨hshape, ?_, ?_⟩ <;> rw [hshape] <;>
    cases h : (maps.filter (fun m => key ∈ m.keys)).getLast? <;>
      simp [h, List.countP_cons, List.countP_append, DispatchEffect.isPreventDefault,
        DispatchEffect.isStop]

end Baca
